import Mathlib

/-!
Verification of the NFL weighted-wins ranking calculator
(`scripts/calculate_rankings.py`).

The schedule DataFrame is modelled as a list of `Game` records carrying the
six columns the script uses (`week`, `home_team`, `away_team`, `home_score`,
`away_score`, `result`).  Nullable columns become `Option`; pandas comparisons
against a null value (NaN) are false, which the `result*` helpers reproduce.

All weighted accumulations in the script add or subtract integer win/loss
counts starting from 0.0, so every `weighted_wins`, `weighted_losses` and
`total` value is integer valued and exactly representable; they are modelled
as `Int`.  Win percentage is genuine division and is modelled over `ℚ`.
`round(x, 2)` at the formatting boundary is the identity on these
integer-valued fields, so no rounding shim is needed for them.
-/

/-- One row of the schedule DataFrame, with the six columns used by the
script (`validate_data`, line 119-122). -/
structure Game where
  week : Nat
  home_team : String
  away_team : String
  home_score : Option Nat
  away_score : Option Nat
  result : Option Int
deriving DecidableEq

/-- The completedness test used by `get_game_results` (line 82):
`schedule['home_score'].notna()` — only the home score is inspected. -/
def isCompleted (g : Game) : Bool :=
  g.home_score.isSome

/-- `get_game_results` (lines 69-85): keep the rows whose `home_score`
is non-null. -/
def get_game_results (schedule : List Game) : List Game :=
  schedule.filter isCompleted

/-- Pandas `result > 0`: false when `result` is null (NaN). -/
def resultPos (g : Game) : Bool :=
  match g.result with
  | some r => decide (0 < r)
  | none => false

/-- Pandas `result < 0`: false when `result` is null (NaN). -/
def resultNeg (g : Game) : Bool :=
  match g.result with
  | some r => decide (r < 0)
  | none => false

/-- Pandas `result == 0`: false when `result` is null (NaN). -/
def resultZero (g : Game) : Bool :=
  match g.result with
  | some r => decide (r = 0)
  | none => false

/-- The win mask of `get_team_record` (lines 152-155). -/
def wonBy (team : String) (g : Game) : Bool :=
  (g.home_team == team && resultPos g) || (g.away_team == team && resultNeg g)

/-- The loss mask of `get_team_record` (lines 158-161). -/
def lostBy (team : String) (g : Game) : Bool :=
  (g.home_team == team && resultNeg g) || (g.away_team == team && resultPos g)

/-- The tie mask of `get_team_record` (lines 164-167). -/
def tiedBy (team : String) (g : Game) : Bool :=
  (g.home_team == team || g.away_team == team) && resultZero g

/-- `get_current_week` (lines 88-106): 0 when no game is completed,
otherwise the maximum `week` among completed games. -/
def get_current_week (schedule : List Game) : Nat :=
  let completed := get_game_results schedule
  if completed.isEmpty then 0
  else (completed.map Game.week).foldl max 0

/-- The game list `get_team_record` counts over (lines 146-149).  The guard
`if through_week:` is Python truthiness: `None` and `0` both skip the week
filter, any other integer applies `week <= through_week`. -/
def completedThrough (schedule : List Game) (through_week : Option Int) : List Game :=
  let completed := get_game_results schedule
  match through_week with
  | none => completed
  | some w => if w = 0 then completed else completed.filter (fun g => decide ((g.week : Int) ≤ w))

/-- The `{'wins': …, 'losses': …, 'ties': …}` dictionary returned by
`get_team_record`. -/
structure Record where
  wins : Nat
  losses : Nat
  ties : Nat
deriving DecidableEq

/-- `get_team_record` (lines 134-169). -/
def get_team_record (schedule : List Game) (team : String) (through_week : Option Int) : Record :=
  let completed := completedThrough schedule through_week
  { wins := (completed.filter (wonBy team)).length,
    losses := (completed.filter (lostBy team)).length,
    ties := (completed.filter (tiedBy team)).length }

/-- `calculate_win_percentage` (lines 172-188). -/
def calculate_win_percentage (wins losses ties : Nat) : ℚ :=
  let total_games := wins + losses + ties
  if total_games = 0 then 0
  else ((wins : ℚ) + (1 / 2) * (ties : ℚ)) / (total_games : ℚ)

/-- Opponent resolution inside the weighted-score loops (lines 215, 251). -/
def opponent (team : String) (g : Game) : String :=
  if g.home_team == team then g.away_team else g.home_team

/-- `calculate_weighted_wins` (lines 191-224): fold over the games `team`
won, adding the opponent's current (unbounded) win count. -/
def calculate_weighted_wins (schedule : List Game) (team : String) : Int :=
  let completed := get_game_results schedule
  let team_wins := completed.filter (wonBy team)
  team_wins.foldl
    (fun acc game => acc + ((get_team_record schedule (opponent team game) none).wins : Int)) 0

/-- `calculate_weighted_losses` (lines 227-260): fold over the games `team`
lost, subtracting the opponent's current (unbounded) loss count. -/
def calculate_weighted_losses (schedule : List Game) (team : String) : Int :=
  let completed := get_game_results schedule
  let team_losses := completed.filter (lostBy team)
  team_losses.foldl
    (fun acc game => acc - ((get_team_record schedule (opponent team game) none).losses : Int)) 0

/-- `calculate_total_score` (lines 263-274). -/
def calculate_total_score (weighted_wins weighted_losses : Int) : Int :=
  weighted_wins + weighted_losses

/-- One entry of the rankings list built in `calculate_all_rankings`
(lines 302-311). -/
structure TeamRanking where
  team : String
  wins : Nat
  losses : Nat
  ties : Nat
  win_pct : ℚ
  weighted_wins : Int
  weighted_losses : Int
  total : Int
deriving DecidableEq

/-- The loop body of `calculate_all_rankings` (lines 296-311) for one team.
The script rounds `win_pct` to 3 and the weighted fields to 2 decimal
places here; the weighted fields are integer valued so that rounding is the
identity, and no claim depends on the rounded `win_pct` value. -/
def build_team_ranking (schedule : List Game) (team : String) : TeamRanking :=
  let record := get_team_record schedule team none
  let win_pct := calculate_win_percentage record.wins record.losses record.ties
  let ww := calculate_weighted_wins schedule team
  let wl := calculate_weighted_losses schedule team
  { team := team,
    wins := record.wins,
    losses := record.losses,
    ties := record.ties,
    win_pct := win_pct,
    weighted_wins := ww,
    weighted_losses := wl,
    total := calculate_total_score ww wl }

/-- The sort relation of `rankings.sort(key=lambda x: x['total'], reverse=True)`
(line 314): descending by `total`.  Python's sort is stable, as is
`List.insertionSort`. -/
def byTotal (a b : TeamRanking) : Prop :=
  b.total ≤ a.total

instance : DecidableRel byTotal :=
  fun a b => inferInstanceAs (Decidable (b.total ≤ a.total))

instance : IsTotal TeamRanking byTotal :=
  ⟨fun a b => le_total b.total a.total⟩

instance : IsTrans TeamRanking byTotal :=
  ⟨fun _ _ _ hab hbc => le_trans hbc hab⟩

/-- `calculate_all_rankings` (lines 277-316): the team universe is the set
of home and away teams of completed games, iterated in sorted order
(`for team in sorted(teams)`), then the list is stably sorted descending
by `total`. -/
def calculate_all_rankings (schedule : List Game) : List TeamRanking :=
  let completed := get_game_results schedule
  let teams := (completed.map Game.home_team ++ completed.map Game.away_team).dedup
  let sorted_teams := List.insertionSort (fun a b => a ≤ b) teams
  let rankings := sorted_teams.map (build_team_ranking schedule)
  List.insertionSort byTotal rankings

/-- Outcome of one run of `main` (lines 425-485) after a successful fetch and
schema validation (both degenerate in this typed embedding: every `Game`
carries all six fields).  `earlyExit` is the `current_week < 2` return at
lines 445-447, which is a plain return, not an exception. -/
inductive RunResult where
  | earlyExit : RunResult
  | output : Nat → List TeamRanking → RunResult
deriving DecidableEq

/-- The core decision of `main` (lines 443-452): early exit below week 2,
otherwise compute the rankings for the current week. -/
def main_run (schedule : List Game) : RunResult :=
  let current_week := get_current_week schedule
  if current_week < 2 then RunResult.earlyExit
  else RunResult.output current_week (calculate_all_rankings schedule)

/-- The week-2 fixture of the test suite (four completed games). -/
def demoSchedule : List Game :=
  [{ week := 1, home_team := "KC", away_team := "BAL",
     home_score := some 27, away_score := some 20, result := some 7 },
   { week := 1, home_team := "BUF", away_team := "NYJ",
     home_score := some 24, away_score := some 17, result := some 7 },
   { week := 2, home_team := "KC", away_team := "BUF",
     home_score := some 28, away_score := some 21, result := some 7 },
   { week := 2, home_team := "BAL", away_team := "NYJ",
     home_score := some 21, away_score := some 14, result := some 7 }]

/-- The sort key order actually produced by `calculate_all_rankings`:
strictly larger total first, lexicographically smaller team first among
equal totals (the stable sort keeps the pre-sort lexicographic order). -/
def rankAfter (a b : TeamRanking) : Prop :=
  b.total < a.total ∨ (b.total = a.total ∧ a.team < b.team)

/-- A game whose home score is set while the away score is still null. -/
def awayNullGame : Game :=
  { week := 1, home_team := "AAA", away_team := "BBB",
    home_score := some 3, away_score := none, result := none }

/-- A single completed week-1 game. -/
def week1Game : Game :=
  { week := 1, home_team := "AAA", away_team := "BBB",
    home_score := some 27, away_score := some 20, result := some 7 }

/-- A schedule whose only completed game is in week 5. -/
def week5Schedule : List Game :=
  [{ week := 5, home_team := "AAA", away_team := "BBB",
     home_score := some 27, away_score := some 20, result := some 7 }]

/-- A game with both scores set but a null `result` column. -/
def nullResultGame : Game :=
  { week := 1, home_team := "AAA", away_team := "BBB",
    home_score := some 3, away_score := some 0, result := none }

theorem foldl_add_eq_sum {α : Type} (f : α → Int) :
    ∀ (l : List α) (a : Int), l.foldl (fun acc x => acc + f x) a = a + (l.map f).sum := by
  intro l
  induction l with
  | nil => intro a; simp
  | cons x xs ih => intro a; simp [ih, add_assoc]

theorem foldl_sub_eq_sum {α : Type} (f : α → Int) :
    ∀ (l : List α) (a : Int), l.foldl (fun acc x => acc - f x) a = a - (l.map f).sum := by
  intro l
  induction l with
  | nil => intro a; simp
  | cons x xs ih => intro a; simp [ih, sub_sub]

theorem not_involved_no_outcome (team : String) (g : Game)
    (hh : g.home_team ≠ team) (ha : g.away_team ≠ team) :
    wonBy team g = false ∧ lostBy team g = false ∧ tiedBy team g = false := by
  have h1 : (g.home_team == team) = false := by simp [hh]
  have h2 : (g.away_team == team) = false := by simp [ha]
  simp [wonBy, lostBy, tiedBy, h1, h2]

/-- C1 (counterexample): a game whose home score is set but whose away score
is null passes the completed-games filter, so the filter does not require
both scores non-null. -/
theorem c1_counterexample :
    awayNullGame ∈ get_game_results [awayNullGame] ∧ awayNullGame.away_score = none := by
  decide

/-- C1 (amended): a game appears in the output of `get_game_results` iff it
appears in the input and its home score is non-null; the away score is not
inspected (line 82 filters on `home_score.notna()` only). -/
theorem c1_completed_filter (schedule : List Game) (g : Game) :
    g ∈ get_game_results schedule ↔ g ∈ schedule ∧ g.home_score.isSome = true := by
  simp [get_game_results, List.mem_filter, isCompleted]

/-- C1 witness: the amended characterisation applied to a concrete completed
game. -/
theorem c1_witness : week1Game ∈ get_game_results [week1Game] :=
  (c1_completed_filter [week1Game] week1Game).mpr (by decide)

/-- C2: `calculate_weighted_wins` equals the sum, over the completed games
the team won, of the beaten opponent's full-season (unbounded through-week)
win count from `get_team_record`; a team with no completed wins gets 0. -/
theorem c2_weighted_wins_spec (schedule : List Game) (team : String) :
    calculate_weighted_wins schedule team
      = (((get_game_results schedule).filter (wonBy team)).map
          (fun g => ((get_team_record schedule (opponent team g) none).wins : Int))).sum
  ∧ ((get_game_results schedule).filter (wonBy team) = [] →
      calculate_weighted_wins schedule team = 0) := by
  have h1 : calculate_weighted_wins schedule team
      = ((get_game_results schedule).filter (wonBy team)).foldl
          (fun acc game => acc + ((get_team_record schedule (opponent team game) none).wins : Int))
          0 := rfl
  constructor
  · rw [h1, foldl_add_eq_sum, zero_add]
  · intro h
    rw [h1, h]
    rfl

/-- C2 witness: in the week-2 fixture NYJ won no completed game, so its
weighted wins are 0. -/
theorem c2_witness : calculate_weighted_wins demoSchedule "NYJ" = 0 :=
  (c2_weighted_wins_spec demoSchedule "NYJ").2 (by decide)

/-- C3: `calculate_weighted_losses` equals 0 minus the sum, over the
completed games the team lost, of the opponent's full-season loss count,
and is therefore non-positive. -/
theorem c3_weighted_losses_spec (schedule : List Game) (team : String) :
    calculate_weighted_losses schedule team
      = 0 - (((get_game_results schedule).filter (lostBy team)).map
          (fun g => ((get_team_record schedule (opponent team g) none).losses : Int))).sum
  ∧ calculate_weighted_losses schedule team ≤ 0 := by
  have h1 : calculate_weighted_losses schedule team
      = ((get_game_results schedule).filter (lostBy team)).foldl
          (fun acc game => acc - ((get_team_record schedule (opponent team game) none).losses : Int))
          0 := rfl
  have h2 : calculate_weighted_losses schedule team
      = 0 - (((get_game_results schedule).filter (lostBy team)).map
          (fun g => ((get_team_record schedule (opponent team g) none).losses : Int))).sum := by
    rw [h1, foldl_sub_eq_sum]
  refine ⟨h2, ?_⟩
  rw [h2]
  have hs : 0 ≤ (((get_game_results schedule).filter (lostBy team)).map
      (fun g => ((get_team_record schedule (opponent team g) none).losses : Int))).sum := by
    apply List.sum_nonneg
    intro x hx
    obtain ⟨g, _, rfl⟩ := List.mem_map.mp hx
    exact Int.natCast_nonneg _
  omega

/-- C5: the record of a team counts wins, losses and ties of completed games
with exactly the home/away result-sign conditions of lines 152-167, and a
team appearing in no game gets the zero record without error. -/
theorem c5_team_record_spec (schedule : List Game) (team : String) :
    ((get_team_record schedule team none).wins = (get_game_results schedule).countP (wonBy team)
      ∧ (get_team_record schedule team none).losses
          = (get_game_results schedule).countP (lostBy team)
      ∧ (get_team_record schedule team none).ties
          = (get_game_results schedule).countP (tiedBy team))
  ∧ ((∀ g ∈ schedule, g.home_team ≠ team ∧ g.away_team ≠ team) →
      get_team_record schedule team none = { wins := 0, losses := 0, ties := 0 }) := by
  have hrec : get_team_record schedule team none
      = { wins := ((get_game_results schedule).filter (wonBy team)).length,
          losses := ((get_game_results schedule).filter (lostBy team)).length,
          ties := ((get_game_results schedule).filter (tiedBy team)).length } := rfl
  refine ⟨⟨?_, ?_, ?_⟩, ?_⟩
  · rw [List.countP_eq_length_filter, hrec]
  · rw [List.countP_eq_length_filter, hrec]
  · rw [List.countP_eq_length_filter, hrec]
  · intro h
    have hcases : ∀ g ∈ get_game_results schedule,
        wonBy team g = false ∧ lostBy team g = false ∧ tiedBy team g = false := by
      intro g hg
      have hmem : g ∈ schedule := (List.mem_filter.mp hg).1
      exact not_involved_no_outcome team g (h g hmem).1 (h g hmem).2
    have e1 : (get_game_results schedule).filter (wonBy team) = [] := by
      apply List.filter_eq_nil_iff.mpr
      intro g hg
      simp [(hcases g hg).1]
    have e2 : (get_game_results schedule).filter (lostBy team) = [] := by
      apply List.filter_eq_nil_iff.mpr
      intro g hg
      simp [(hcases g hg).2.1]
    have e3 : (get_game_results schedule).filter (tiedBy team) = [] := by
      apply List.filter_eq_nil_iff.mpr
      intro g hg
      simp [(hcases g hg).2.2]
    rw [hrec, e1, e2, e3]
    rfl

/-- C5 witness: a team absent from the fixture gets the zero record. -/
theorem c5_witness : get_team_record demoSchedule "SEA" none
    = { wins := 0, losses := 0, ties := 0 } :=
  (c5_team_record_spec demoSchedule "SEA").2 (by decide)

/-- C7: win percentage is `(wins + ties/2) / (wins+losses+ties)` with an
explicit zero guard, and always lies in `[0, 1]`. -/
theorem c7_win_pct_spec (wins losses ties : Nat) :
    (wins + losses + ties = 0 → calculate_win_percentage wins losses ties = 0)
  ∧ (wins + losses + ties ≠ 0 →
      calculate_win_percentage wins losses ties
        = ((wins : ℚ) + (1 / 2) * (ties : ℚ)) / ((wins + losses + ties : Nat) : ℚ))
  ∧ 0 ≤ calculate_win_percentage wins losses ties
  ∧ calculate_win_percentage wins losses ties ≤ 1 := by
  by_cases h : wins + losses + ties = 0
  · refine ⟨fun _ => ?_, fun hc => absurd h hc, ?_, ?_⟩ <;> simp [calculate_win_percentage, h]
  · have hpos : (0 : ℚ) < ((wins + losses + ties : Nat) : ℚ) := by
      exact_mod_cast Nat.pos_of_ne_zero h
    have heq : calculate_win_percentage wins losses ties
        = ((wins : ℚ) + (1 / 2) * (ties : ℚ)) / ((wins + losses + ties : Nat) : ℚ) := by
      simp [calculate_win_percentage, h]
    have hw : (0 : ℚ) ≤ (wins : ℚ) := by positivity
    have hl : (0 : ℚ) ≤ (losses : ℚ) := by positivity
    have ht : (0 : ℚ) ≤ (ties : ℚ) := by positivity
    refine ⟨fun hc => absurd hc h, fun _ => heq, ?_, ?_⟩
    · rw [heq]
      apply div_nonneg _ (le_of_lt hpos)
      linarith
    · rw [heq, div_le_one hpos]
      push_cast
      linarith

/-- C7 witness: the formula at a concrete record with a nonzero
denominator. -/
theorem c7_witness : calculate_win_percentage 2 1 1
    = (((2 : Nat) : ℚ) + (1 / 2) * (((1 : Nat)) : ℚ)) / (((2 + 1 + 1 : Nat)) : ℚ) :=
  (c7_win_pct_spec 2 1 1).2.1 (by decide)

theorem completedThrough_some_ne (schedule : List Game) (w : Int) (hw : w ≠ 0) :
    completedThrough schedule (some w)
      = (schedule.filter (fun g => decide ((g.week : Int) ≤ w))).filter isCompleted := by
  simp only [completedThrough, get_game_results, if_neg hw, List.filter_filter]
  congr 1
  funext g
  rw [Bool.and_comm]

/-- C6: in every ranking entry produced by `calculate_all_rankings`, the
emitted total equals the emitted weighted wins plus the emitted weighted
losses exactly (hence within any 0.01 tolerance; the three fields are
integer valued, so the 2-decimal rounding at the formatting boundary is the
identity on them). -/
theorem c6_total_eq (schedule : List Game) (r : TeamRanking)
    (hr : r ∈ calculate_all_rankings schedule) :
    r.total = r.weighted_wins + r.weighted_losses := by
  have hr' : r ∈ List.insertionSort byTotal
      ((List.insertionSort (fun a b : String => a ≤ b)
        (((get_game_results schedule).map Game.home_team
          ++ (get_game_results schedule).map Game.away_team).dedup)).map
        (build_team_ranking schedule)) := hr
  have hmem := (List.perm_insertionSort byTotal _).mem_iff.mp hr'
  obtain ⟨t, _, rfl⟩ := List.mem_map.mp hmem
  rfl

/-- C6 witness: the identity applied to the home-team entry of a one-game
schedule. -/
theorem c6_witness : (build_team_ranking [week1Game] "AAA").total
    = (build_team_ranking [week1Game] "AAA").weighted_wins
      + (build_team_ranking [week1Game] "AAA").weighted_losses :=
  c6_total_eq [week1Game] (build_team_ranking [week1Game] "AAA") (by
    show build_team_ranking [week1Game] "AAA" ∈ List.insertionSort byTotal
      ((List.insertionSort (fun a b : String => a ≤ b)
        (((get_game_results [week1Game]).map Game.home_team
          ++ (get_game_results [week1Game]).map Game.away_team).dedup)).map
        (build_team_ranking [week1Game]))
    apply (List.perm_insertionSort byTotal _).mem_iff.mpr
    apply List.mem_map.mpr
    refine ⟨"AAA", ?_, rfl⟩
    apply (List.perm_insertionSort _ _).mem_iff.mpr
    decide)

/-- C8 (counterexample): with `through_week = 0` the week filter is skipped
(Python `if through_week:` is false at 0), so a week-1 win is still counted,
while the claim says only games with `week <= 0` may count. -/
theorem c8_counterexample :
    get_team_record [week1Game] "AAA" (some 0) = { wins := 1, losses := 0, ties := 0 }
  ∧ ¬ ((week1Game.week : Int) ≤ (0 : Int)) := by
  decide

/-- C8 (amended): `through_week = 0` behaves like no bound at all, and for
any nonzero `through_week` the record is computed over exactly the games
with `week <= through_week`. -/
theorem c8_through_week_spec (schedule : List Game) (team : String) (w : Int) :
    get_team_record schedule team (some 0) = get_team_record schedule team none
  ∧ (w ≠ 0 → get_team_record schedule team (some w)
      = get_team_record (schedule.filter (fun g => decide ((g.week : Int) ≤ w))) team none) := by
  constructor
  · rfl
  · intro hw
    have h1 : get_team_record schedule team (some w)
        = { wins := ((completedThrough schedule (some w)).filter (wonBy team)).length,
            losses := ((completedThrough schedule (some w)).filter (lostBy team)).length,
            ties := ((completedThrough schedule (some w)).filter (tiedBy team)).length } := rfl
    have h2 : get_team_record (schedule.filter (fun g => decide ((g.week : Int) ≤ w))) team none
        = { wins := (((schedule.filter (fun g => decide ((g.week : Int) ≤ w))).filter
              isCompleted).filter (wonBy team)).length,
            losses := (((schedule.filter (fun g => decide ((g.week : Int) ≤ w))).filter
              isCompleted).filter (lostBy team)).length,
            ties := (((schedule.filter (fun g => decide ((g.week : Int) ≤ w))).filter
              isCompleted).filter (tiedBy team)).length } := rfl
    rw [h1, h2, completedThrough_some_ne schedule w hw]

/-- C8 witness: a nonzero bound on the week-2 fixture. -/
theorem c8_witness : get_team_record demoSchedule "KC" (some 1)
    = get_team_record (demoSchedule.filter (fun g => decide ((g.week : Int) ≤ (1 : Int))))
        "KC" none :=
  (c8_through_week_spec demoSchedule "KC" 1).2 (by decide)

theorem foldl_max_lt_iff :
    ∀ (l : List Nat) (a n : Nat), l.foldl max a < n ↔ a < n ∧ ∀ x ∈ l, x < n := by
  intro l
  induction l with
  | nil => intro a n; simp
  | cons x xs ih =>
      intro a n
      simp only [List.foldl_cons, ih, List.mem_cons]
      constructor
      · rintro ⟨h1, h2⟩
        have hm := max_lt_iff.mp h1
        exact ⟨hm.1, fun y hy => hy.elim (fun he => he ▸ hm.2) (h2 y)⟩
      · rintro ⟨h1, h2⟩
        exact ⟨max_lt_iff.mpr ⟨h1, h2 x (Or.inl rfl)⟩, fun y hy => h2 y (Or.inr hy)⟩

theorem current_week_lt_two_iff (schedule : List Game) :
    get_current_week schedule < 2 ↔ ∀ g ∈ schedule, isCompleted g = true → g.week < 2 := by
  by_cases hE : (get_game_results schedule).isEmpty
  · have hnil : get_game_results schedule = [] := List.isEmpty_iff.mp hE
    have h0 : get_current_week schedule = 0 := by simp [get_current_week, hE]
    rw [h0]
    constructor
    · intro _ g hg hc
      have hmem : g ∈ get_game_results schedule := List.mem_filter.mpr ⟨hg, hc⟩
      rw [hnil] at hmem
      exact absurd hmem (List.not_mem_nil g)
    · intro _
      decide
  · have hfold : get_current_week schedule
        = ((get_game_results schedule).map Game.week).foldl max 0 := by
      simp [get_current_week, hE]
    rw [hfold, foldl_max_lt_iff]
    constructor
    · rintro ⟨-, h⟩ g hg hc
      exact h g.week (List.mem_map.mpr ⟨g, List.mem_filter.mpr ⟨hg, hc⟩, rfl⟩)
    · intro h
      refine ⟨by decide, ?_⟩
      intro x hx
      obtain ⟨g, hg, rfl⟩ := List.mem_map.mp hx
      have hm := List.mem_filter.mp hg
      exact h g hm.1 hm.2

/-- C9 (counterexample): a schedule whose only completed game is in week 5
has a single completed week, yet the run does not early-exit — the gate
tests the maximum completed week number, not the number of completed
weeks. -/
theorem c9_counterexample :
    ((week5Schedule.filter isCompleted).map Game.week).dedup.length = 1
  ∧ main_run week5Schedule ≠ RunResult.earlyExit := by
  decide

/-- C9 (amended): the run early-exits (producing no ranking and no
snapshot, with no error) exactly when every completed game is in a week
below 2 — in particular when there are no completed games at all. -/
theorem c9_early_exit_iff (schedule : List Game) :
    main_run schedule = RunResult.earlyExit
      ↔ ∀ g ∈ schedule, isCompleted g = true → g.week < 2 := by
  rw [← current_week_lt_two_iff]
  unfold main_run
  by_cases h : get_current_week schedule < 2
  · simp [h]
  · simp [h]

/-- C9 witness: a schedule with only a completed week-1 game early-exits. -/
theorem c9_witness : main_run [week1Game] = RunResult.earlyExit :=
  (c9_early_exit_iff [week1Game]).mpr (by decide)

theorem outcome_trichotomy (team : String) (g : Game)
    (hne : g.home_team ≠ g.away_team) (hr : g.result ≠ none) :
    ((if wonBy team g = true then 1 else 0) + (if lostBy team g = true then 1 else 0)
      + (if tiedBy team g = true then 1 else 0) : Nat)
    = if (g.home_team == team || g.away_team == team) = true then 1 else 0 := by
  obtain ⟨r, hr'⟩ := Option.ne_none_iff_exists.mp hr
  have e1 : g.result = some r := hr'.symm
  by_cases hh : g.home_team = team <;> by_cases ha : g.away_team = team
  · exact absurd (hh.trans ha.symm) hne
  · have bh : (g.home_team == team) = true := by simp [hh]
    have ba : (g.away_team == team) = false := by simp [ha]
    simp only [wonBy, lostBy, tiedBy, resultPos, resultNeg, resultZero, e1, bh, ba,
      Bool.true_and, Bool.false_and, Bool.true_or, Bool.or_false, Bool.false_or,
      Bool.and_false, Bool.and_true, decide_eq_true_eq]
    split_ifs <;> omega
  · have bh : (g.home_team == team) = false := by simp [hh]
    have ba : (g.away_team == team) = true := by simp [ha]
    simp only [wonBy, lostBy, tiedBy, resultPos, resultNeg, resultZero, e1, bh, ba,
      Bool.true_and, Bool.false_and, Bool.true_or, Bool.or_false, Bool.false_or,
      Bool.or_true, Bool.and_false, Bool.and_true, decide_eq_true_eq]
    split_ifs <;> omega
  · have bh : (g.home_team == team) = false := by simp [hh]
    have ba : (g.away_team == team) = false := by simp [ha]
    simp [wonBy, lostBy, tiedBy, bh, ba]

theorem count_outcomes (team : String) :
    ∀ L : List Game, (∀ g ∈ L, g.home_team ≠ g.away_team) → (∀ g ∈ L, g.result ≠ none) →
    L.countP (wonBy team) + L.countP (lostBy team) + L.countP (tiedBy team)
      = L.countP (fun g => g.home_team == team || g.away_team == team) := by
  intro L
  induction L with
  | nil => intro _ _; rfl
  | cons g L ih =>
      intro h1 h2
      have hg1 := h1 g (List.mem_cons_self g L)
      have hg2 := h2 g (List.mem_cons_self g L)
      have hrec := ih (fun x hx => h1 x (List.mem_cons_of_mem g hx))
        (fun x hx => h2 x (List.mem_cons_of_mem g hx))
      have hout := outcome_trichotomy team g hg1 hg2
      simp only [List.countP_cons]
      omega

theorem mem_completedThrough (schedule : List Game) (tw : Option Int) (g : Game)
    (hg : g ∈ completedThrough schedule tw) : g ∈ schedule ∧ isCompleted g = true := by
  cases tw with
  | none =>
      have hg' : g ∈ schedule.filter isCompleted := hg
      exact ⟨(List.mem_filter.mp hg').1, (List.mem_filter.mp hg').2⟩
  | some w =>
      by_cases hw : w = 0
      · subst hw
        have hg' : g ∈ schedule.filter isCompleted := hg
        exact ⟨(List.mem_filter.mp hg').1, (List.mem_filter.mp hg').2⟩
      · rw [completedThrough_some_ne schedule w hw] at hg
        have hg' := List.mem_filter.mp hg
        exact ⟨(List.mem_filter.mp hg'.1).1, hg'.2⟩

/-- C10 (counterexample): a completed game with both scores set but a null
`result` column is classified as neither win, loss nor tie, so the record
components do not add up to the number of completed games involving the
team even though no game has equal home and away teams. -/
theorem c10_counterexample :
    get_team_record [nullResultGame] "AAA" none = { wins := 0, losses := 0, ties := 0 }
  ∧ (completedThrough [nullResultGame] none).countP
      (fun g => g.home_team == "AAA" || g.away_team == "AAA") = 1
  ∧ nullResultGame.home_team ≠ nullResultGame.away_team := by
  decide

/-- C10 (amended): if additionally every completed game carries a non-null
`result` (the data-model invariant), then wins + losses + ties equals the
number of completed in-range games in which the team appears. -/
theorem c10_record_partitions (schedule : List Game) (team : String) (tw : Option Int)
    (h1 : ∀ g ∈ schedule, g.home_team ≠ g.away_team)
    (h2 : ∀ g ∈ schedule, isCompleted g = true → g.result ≠ none) :
    (get_team_record schedule team tw).wins + (get_team_record schedule team tw).losses
      + (get_team_record schedule team tw).ties
    = (completedThrough schedule tw).countP
        (fun g => g.home_team == team || g.away_team == team) := by
  have e1 : (get_team_record schedule team tw).wins
      = (completedThrough schedule tw).countP (wonBy team) := by
    rw [List.countP_eq_length_filter]; rfl
  have e2 : (get_team_record schedule team tw).losses
      = (completedThrough schedule tw).countP (lostBy team) := by
    rw [List.countP_eq_length_filter]; rfl
  have e3 : (get_team_record schedule team tw).ties
      = (completedThrough schedule tw).countP (tiedBy team) := by
    rw [List.countP_eq_length_filter]; rfl
  rw [e1, e2, e3]
  exact count_outcomes team (completedThrough schedule tw)
    (fun g hg => h1 g (mem_completedThrough schedule tw g hg).1)
    (fun g hg => h2 g (mem_completedThrough schedule tw g hg).1
      (mem_completedThrough schedule tw g hg).2)

/-- C10 witness: the partition identity on the week-2 fixture. -/
theorem c10_witness :
    (get_team_record demoSchedule "KC" none).wins
      + (get_team_record demoSchedule "KC" none).losses
      + (get_team_record demoSchedule "KC" none).ties
    = (completedThrough demoSchedule none).countP
        (fun g => g.home_team == "KC" || g.away_team == "KC") :=
  c10_record_partitions demoSchedule "KC" none (by decide) (by decide)

theorem pairwise_orderedInsert (a : TeamRanking) :
    ∀ ys : List TeamRanking, ys.Pairwise rankAfter → (∀ y ∈ ys, a.team < y.team) →
    (List.orderedInsert byTotal a ys).Pairwise rankAfter := by
  intro ys
  induction ys with
  | nil =>
      intro _ _
      simp [List.orderedInsert]
  | cons y ys ih =>
      intro hp hteam
      by_cases h : byTotal a y
      · rw [List.orderedInsert_of_le byTotal ys h]
        refine List.pairwise_cons.mpr ⟨?_, hp⟩
        intro z hz
        have hle : y.total ≤ a.total := h
        rcases List.mem_cons.mp hz with rfl | hz'
        · rcases lt_or_eq_of_le hle with hlt | heq
          · exact Or.inl hlt
          · exact Or.inr ⟨heq, hteam z (List.mem_cons_self z ys)⟩
        · have hyz := List.rel_of_pairwise_cons hp hz'
          have hzy : z.total ≤ y.total := by
            rcases hyz with h' | h'
            · exact le_of_lt h'
            · exact le_of_eq h'.1
          rcases lt_or_eq_of_le (le_trans hzy hle) with hlt | heq
          · exact Or.inl hlt
          · exact Or.inr ⟨heq, hteam z (List.mem_cons_of_mem y hz')⟩
      · have hlt : a.total < y.total := not_le.mp (fun hc => h hc)
        have e : List.orderedInsert byTotal a (y :: ys)
            = y :: List.orderedInsert byTotal a ys := by
          simp only [List.orderedInsert, if_neg h]
        rw [e]
        refine List.pairwise_cons.mpr
          ⟨?_, ih (List.pairwise_cons.mp hp).2
            (fun y' hy' => hteam y' (List.mem_cons_of_mem y hy'))⟩
        intro z hz
        rcases (List.mem_orderedInsert byTotal).mp hz with rfl | hz'
        · exact Or.inl hlt
        · exact List.rel_of_pairwise_cons hp hz'

theorem pairwise_insertionSort_of_team_sorted :
    ∀ l : List TeamRanking, l.Pairwise (fun a b => a.team < b.team) →
    (List.insertionSort byTotal l).Pairwise rankAfter := by
  intro l
  induction l with
  | nil => intro _; simp
  | cons a l ih =>
      intro hp
      have e : List.insertionSort byTotal (a :: l)
          = List.orderedInsert byTotal a (List.insertionSort byTotal l) := rfl
      rw [e]
      apply pairwise_orderedInsert
      · exact ih (List.pairwise_cons.mp hp).2
      · intro y hy
        exact (List.pairwise_cons.mp hp).1 y
          ((List.perm_insertionSort byTotal l).mem_iff.mp hy)

/-- C4: the rankings list is pairwise ordered: every later entry has a
total less than or equal to every earlier one, and entries with equal
totals appear in strictly increasing lexicographic team order (the stable
descending sort keeps the pre-sort lexicographic iteration order; the
function is deterministic, and no criterion beside the total enters the
order). -/
theorem c4_rankings_sorted (schedule : List Game) :
    (calculate_all_rankings schedule).Pairwise
      (fun a b => b.total ≤ a.total ∧ (a.total = b.total → a.team < b.team)) := by
  have hnd : (((get_game_results schedule).map Game.home_team
      ++ (get_game_results schedule).map Game.away_team).dedup).Nodup :=
    List.nodup_dedup _
  have hsorted : (List.insertionSort (fun a b : String => a ≤ b)
      (((get_game_results schedule).map Game.home_team
        ++ (get_game_results schedule).map Game.away_team).dedup)).Pairwise
      (fun a b : String => a ≤ b) :=
    List.sorted_insertionSort _ _
  have hnodup : (List.insertionSort (fun a b : String => a ≤ b)
      (((get_game_results schedule).map Game.home_team
        ++ (get_game_results schedule).map Game.away_team).dedup)).Nodup :=
    (List.perm_insertionSort _ _).nodup_iff.mpr hnd
  have hlt := (List.Pairwise.and hsorted hnodup).imp
    (fun h => lt_of_le_of_ne h.1 h.2)
  have hmap : ((List.insertionSort (fun a b : String => a ≤ b)
      (((get_game_results schedule).map Game.home_team
        ++ (get_game_results schedule).map Game.away_team).dedup)).map
      (build_team_ranking schedule)).Pairwise (fun a b => a.team < b.team) :=
    List.pairwise_map.mpr (hlt.imp (fun h => h))
  have key : (calculate_all_rankings schedule).Pairwise rankAfter :=
    pairwise_insertionSort_of_team_sorted _ hmap
  refine key.imp ?_
  intro a b h
  rcases h with hlt' | ⟨heq, hteam⟩
  · refine ⟨le_of_lt hlt', fun he => ?_⟩
    rw [he] at hlt'
    exact absurd hlt' (lt_irrefl _)
  · exact ⟨le_of_eq heq, fun _ => hteam⟩

/-- C4 witness: the ordering property on the week-2 fixture. -/
theorem c4_witness : (calculate_all_rankings demoSchedule).Pairwise
    (fun a b => b.total ≤ a.total ∧ (a.total = b.total → a.team < b.team)) :=
  c4_rankings_sorted demoSchedule
